import Mathlib

/-!
Shallow embedding of `autopush/db.py`, the storage-consistency layer of the
autopush push-notification service, together with proofs about the claims of
its specification.

The embedding models DynamoDB records as association lists of attribute
values, and each table as a function from its primary key to an optional
record.  Conditional writes are modelled exactly as the source builds them
(boto2 `condition_expression` / `expected` arguments), including the boto2
client behaviours the source relies on:

* layer-1 (`table.connection`) calls raise `ConditionalCheckFailedException`
  on a failed condition, which the source catches where it does;
* the high-level `Table.delete_item` catches that exception itself and
  returns `False`, so a caller that ignores its return value never observes
  a conditional-delete failure;
* `Item.__getitem__` returns `None` (here `AttrVal.nullv`) for a missing
  attribute, and `Item.get_raw_keys()` produces a record holding only the
  table's key fields;
* a DynamoDB `put_item` replaces the whole stored record.
-/

namespace Autopush

/-- A DynamoDB attribute value: string, number, string set, or null
(the encoding of Python `None`). -/
inductive AttrVal where
  | s (v : String)
  | n (v : Int)
  | ss (v : List String)
  | nullv
deriving DecidableEq, Repr

/-- A stored record / Python dict: an association list from attribute
names to values (keys unique in all reachable states). -/
abbrev AttrMap := List (String × AttrVal)

/-- Dictionary lookup (first matching key). -/
def lookupA : AttrMap → String → Option AttrVal
  | [], _ => none
  | (k, v) :: rest, key => if k = key then some v else lookupA rest key

/-- Remove a key from a dict (Python `del d[k]` / `d.pop(k)`). -/
def eraseA : AttrMap → String → AttrMap
  | [], _ => []
  | (k, v) :: rest, key => if k = key then eraseA rest key else (k, v) :: eraseA rest key

/-- Set a key in a dict, replacing any previous binding. -/
def insertA (m : AttrMap) (key : String) (v : AttrVal) : AttrMap :=
  eraseA m key ++ [(key, v)]

/-- Python truthiness of an attribute value (`if data:` etc.). -/
def truthyV : AttrVal → Bool
  | .s v => v ≠ ""
  | .n v => v ≠ 0
  | .ss v => v ≠ []
  | .nullv => false

/-- Truthiness of an optional value (absent / `None` is falsy). -/
def truthyO : Option AttrVal → Bool
  | none => false
  | some v => truthyV v

/-- DynamoDB `<` comparison inside a condition expression: defined on two
numbers, false on any type mismatch. -/
def ltA : AttrVal → AttrVal → Bool
  | .n a, .n b => a < b
  | _, _ => false

/-- A table keyed by `κ`: each key holds at most one record. -/
def Table (κ : Type) := κ → Option AttrMap

/-- Store a record at a key (full `put_item` replacement, or the result of an
`update_item` on that key). -/
def tset {κ : Type} [DecidableEq κ] (db : Table κ) (k : κ) (r : AttrMap) : Table κ :=
  fun x => if x = k then some r else db x

/-- Delete the record at a key. -/
def tdel {κ : Type} [DecidableEq κ] (db : Table κ) (k : κ) : Table κ :=
  fun x => if x = k then none else db x

/-- Failures surfaced by the embedded operations: a throughput-exceeded
signal from the backing store, or a Python-level error
(`KeyError` / a DynamoDB validation error). -/
inductive DbErr where
  | throttled
  | keyError (k : String)
deriving DecidableEq, Repr

/-! ### Router table (`Router` class)

The router table is keyed by `uaid` alone.  `register_user` receives a whole
dict, so keys are modelled as raw attribute values. -/

/-- The router table: `uaid ↦ record`. -/
abbrev RouterDB := Table AttrVal

/-- Everything `Router.register_user` produces: the boolean outcome, the
previous attributes returned alongside it, the table after the call, and the
caller's dict after the call (the source pops `"uaid"` out of it). -/
structure RegResult where
  ok : Bool
  prev : AttrMap
  db : RouterDB
  dataAfter : AttrMap

/-- `Router.register_user(data)` (db.py:503-551).

`data.pop("uaid")` removes the key from the caller's dict (raising `KeyError`
when absent) and names the row.  The remaining keys are written with a single
`update_item` whose condition is

  `(attribute_not_exists(router_type) or router_type = :router_type) and
   (attribute_not_exists(node_id) or connected_at < :connected_at)`;

the condition's expression values come from the dict, so `router_type` and
`connected_at` must be present in it.  `ALL_OLD` returns the previous
attributes on success ( `{}` when the row is new); a failed condition raises
`ConditionalCheckFailedException`, caught and turned into `(False, {})`. -/
def register_user (db : RouterDB) (data : AttrMap) : Except DbErr RegResult :=
  match lookupA data "uaid" with
  | none => .error (.keyError "uaid")
  | some uaidVal =>
    let data' := eraseA data "uaid"
    match lookupA data' "router_type", lookupA data' "connected_at" with
    | some rtVal, some connVal =>
      let old := db uaidVal
      let condOk :=
        match old with
        | none => true
        | some r =>
          (decide (lookupA r "router_type" = none) ||
            decide (lookupA r "router_type" = some rtVal)) &&
          (decide (lookupA r "node_id" = none) ||
            (match lookupA r "connected_at" with
             | some c => ltA c connVal
             | none => false))
      if condOk then
        let newRec := data'.foldl (fun acc kv => insertA acc kv.1 kv.2) (old.getD [])
        .ok { ok := true, prev := old.getD [], db := tset db uaidVal newRec,
              dataAfter := data' }
      else
        .ok { ok := false, prev := [], db := db, dataAfter := data' }
    | _, _ => .error (.keyError "validation")

/-- What `Router.clear_node` produces: the boolean outcome, the table after
the call, and the caller's item after the call (the source deletes
`"node_id"` from it). -/
structure ClearResult where
  ok : Bool
  db : RouterDB
  itemAfter : AttrMap

/-- `Router.clear_node(item)` (db.py:574-606).

Reads `item["node_id"]` (boto items yield `None` for a missing attribute),
deletes the key from the caller's item, then issues a `put_item` of
`item.get_raw_keys()` — a record holding **only** the `uaid` key field —
under the condition `(node_id = :node) and (connected_at = :conn)` against
the stored row.  A failed condition (including a missing row) raises
`ConditionalCheckFailedException`, caught and turned into `False`. -/
def clear_node (db : RouterDB) (item : AttrMap) : ClearResult :=
  let nodeVal := (lookupA item "node_id").getD .nullv
  let item' := eraseA item "node_id"
  let connVal := (lookupA item' "connected_at").getD .nullv
  let uaidVal := (lookupA item' "uaid").getD .nullv
  let condOk :=
    match db uaidVal with
    | none => false
    | some r =>
      decide (lookupA r "node_id" = some nodeVal) &&
      decide (lookupA r "connected_at" = some connVal)
  if condOk then
    { ok := true, db := tset db uaidVal [("uaid", uaidVal)], itemAfter := item' }
  else
    { ok := false, db := db, itemAfter := item' }

/-! ### Storage table (`Storage` class, simplepush notifications)

Keyed by `(uaid, chid)`; the payload attribute is the numeric `version`. -/

/-- The storage table: `(uaid, chid) ↦ record`. -/
abbrev StorageDB := Table (String × String)

/-- The record `save_notification` writes: `{uaid, chid, version}`. -/
def notifRec (uaid chid : String) (version : Int) : AttrMap :=
  [("uaid", .s uaid), ("chid", .s chid), ("version", .n version)]

/-- `Storage.save_notification(uaid, chid, version)` (db.py:221-243).

A layer-1 `put_item` guarded by
`attribute_not_exists(version) or version < :ver`; a put replaces the whole
record.  The raised `ConditionalCheckFailedException` is caught and turned
into `False`. -/
def save_notification (db : StorageDB) (uaid chid : String) (version : Int) :
    Bool × StorageDB :=
  let condOk :=
    match db (uaid, chid) with
    | none => true
    | some r =>
      match lookupA r "version" with
      | none => true
      | some v => ltA v (.n version)
  if condOk then
    (true, tset db (uaid, chid) (notifRec uaid chid version))
  else
    (false, db)

/-- `Storage.delete_notification(uaid, chid, version=None)` (db.py:245-261).

`if version:` tests truthiness, so `None` and `0` both take the
unconditional branch.  The conditional branch passes
`expected={"version__eq": version}` to the high-level `Table.delete_item`,
which deletes only when the stored version equals the expected one — and
returns `False` rather than raising when it does not; that return value is
discarded, so the method returns `True` either way.  Only a
throughput-exceeded failure (the `throttled` flag) is caught: it increments
`error.provisioned.delete_notification` and degrades to `False`.
Result: `(returned bool, table after, metric counters incremented)`. -/
def delete_notification (throttled : Bool) (db : StorageDB) (uaid chid : String)
    (version : Option Int) : Bool × StorageDB × List String :=
  if throttled then
    (false, db, ["error.provisioned.delete_notification"])
  else
    match version with
    | some v =>
      if v ≠ 0 then
        let hit : Bool :=
          match db (uaid, chid) with
          | some r => decide (lookupA r "version" = some (.n v))
          | none => false
        if hit then (true, tdel db (uaid, chid), [])
        else (true, db, [])
      else (true, tdel db (uaid, chid), [])
    | none => (true, tdel db (uaid, chid), [])

/-! ### Message table (`Message` class, webpush messages)

Keyed by `(uaid, chidmessageid)` where `chidmessageid` is either the channel
registry sentinel `" "` or `"chid:messageId"`. -/

/-- The message table: `(uaid, chidmessageid) ↦ record`. -/
abbrev MsgDB := Table (String × String)

/-- `Message.all_channels(uaid)` (db.py:318-330).

A consistent `get_item` at the sentinel key; `ItemNotFound` becomes
`(False, set())`.  Otherwise `result["chids"]` yields the attribute or
`None` when absent (boto item lookup), and `... or set([])` maps any falsy
value (absent attribute, empty set) to the empty set. -/
def all_channels (db : MsgDB) (uaid : String) : Bool × List String :=
  match db (uaid, " ") with
  | none => (false, [])
  | some r =>
    match lookupA r "chids" with
    | some (.ss l) => (true, l)
    | _ => (true, [])

/-- The timestamp an update/store writes: `timestamp or int(time.time())`,
Python truthiness, so `None` and `0` both become the current time `now`. -/
def tsOf (timestamp : Option Int) (now : Int) : Int :=
  match timestamp with
  | some t => if t ≠ 0 then t else now
  | none => now

/-- `Message.update_message(uaid, channel_id, message_id, ttl, data=None,
headers=None, timestamp=None)` (db.py:361-403).

A layer-1 `update_item` at key `"channel_id:message_id"` under the condition
`attribute_exists(updateid)`; a failed condition (in particular a missing
row, which the update then does not create) raises
`ConditionalCheckFailedException`, caught and turned into `False`.
The update always sets `ttl`, `timestamp` (`timestamp or int(time.time())`,
so a falsy timestamp becomes the current time `now`) and a freshly generated
`updateid` (`newUid`); `if data:` decides truthily whether `data`/`headers`
are additionally SET or instead REMOVEd. -/
def update_message (db : MsgDB) (uaid channel_id message_id : String) (ttl : Int)
    (data headers : Option AttrVal) (timestamp : Option Int) (now : Int)
    (newUid : String) : Bool × MsgDB :=
  let ts : Int := tsOf timestamp now
  let key := (uaid, channel_id ++ ":" ++ message_id)
  match db key with
  | none => (false, db)
  | some r =>
    if (lookupA r "updateid").isSome then
      let r1 := insertA (insertA (insertA r "ttl" (.n ttl))
        "timestamp" (.n ts)) "updateid" (.s newUid)
      let r2 :=
        if truthyO data then
          insertA (insertA r1 "data" (data.getD .nullv))
            "headers" (headers.getD .nullv)
        else
          eraseA (eraseA r1 "data") "headers"
      (true, tset db key r2)
    else
      (false, db)

/-- `Message.delete_message(uaid, channel_id, message_id, updateid=None)`
(db.py:405-418).

`if updateid:` tests truthiness, so `None` and `""` both take the
unconditional branch.  The conditional branch passes
`expected={'updateid__eq': updateid}` to the high-level `Table.delete_item`,
which deletes only on a stored match and returns `False` (without raising)
on a mismatch; the surrounding `except ConditionalCheckFailedException`
therefore never fires and the method returns `True` either way. -/
def delete_message (db : MsgDB) (uaid channel_id message_id : String)
    (updateid : Option String) : Bool × MsgDB :=
  let key := (uaid, channel_id ++ ":" ++ message_id)
  match updateid with
  | some u =>
    if u ≠ "" then
      let hit : Bool :=
        match db key with
        | some r => decide (lookupA r "updateid" = some (.s u))
        | none => false
      if hit then (true, tdel db key) else (true, db)
    else (true, tdel db key)
  | none => (true, tdel db key)

/-! ### Rotating partition names (`get_month`, `make_rotating_tablename`)

`datetime.date` arithmetic is embedded as day-by-day stepping over the
Gregorian calendar; `timedelta(days=14)` is fourteen single-day steps. -/

/-- A Gregorian calendar date (Python `datetime.date`). -/
structure Date where
  year : Nat
  month : Nat
  day : Nat
deriving DecidableEq, Repr

/-- Gregorian leap-year rule. -/
def isLeap (y : Nat) : Bool :=
  (y % 4 == 0 && y % 100 != 0) || y % 400 == 0

/-- Length of a month in the Gregorian calendar. -/
def daysInMonth (y m : Nat) : Nat :=
  if m = 2 then (if isLeap y then 29 else 28)
  else if m = 4 ∨ m = 6 ∨ m = 9 ∨ m = 11 then 30
  else 31

/-- A well-formed calendar date. -/
def Date.Valid (d : Date) : Prop :=
  1 ≤ d.month ∧ d.month ≤ 12 ∧ 1 ≤ d.day ∧ d.day ≤ daysInMonth d.year d.month

instance (d : Date) : Decidable d.Valid := by
  unfold Date.Valid; infer_instance

/-- The day after `d` (`d + timedelta(days=1)`). -/
def nextDay (d : Date) : Date :=
  if d.day < daysInMonth d.year d.month then ⟨d.year, d.month, d.day + 1⟩
  else if d.month < 12 then ⟨d.year, d.month + 1, 1⟩
  else ⟨d.year + 1, 1, 1⟩

/-- The day before `d` (`d - timedelta(days=1)`). -/
def prevDay (d : Date) : Date :=
  if 1 < d.day then ⟨d.year, d.month, d.day - 1⟩
  else if 1 < d.month then ⟨d.year, d.month - 1, daysInMonth d.year (d.month - 1)⟩
  else ⟨d.year - 1, 12, 31⟩

/-- `d + timedelta(days=n)`. -/
def addDays (d : Date) : Nat → Date
  | 0 => d
  | n + 1 => addDays (nextDay d) n

/-- `d - timedelta(days=n)`. -/
def subDays (d : Date) : Nat → Date
  | 0 => d
  | n + 1 => subDays (prevDay d) n

/-- One body of `get_month`'s inner loop: `new -= timedelta(days=14)` when
`delta < 0`, else `new += timedelta(days=14)`. -/
def stepDate (delta : Int) (d : Date) : Date :=
  if delta < 0 then subDays d 14 else addDays d 14

/-- `get_month`'s inner loop, `while new.month == last.month: new = step new`,
with explicit fuel (the source loop needs at most three steps: each step
moves 14 days, and 42 days always crosses a month boundary). -/
def seekNewMonth (delta : Int) : Nat → Date → Date → Date
  | 0, _, new => new
  | fuel + 1, last, new =>
    if new.month = last.month then
      seekNewMonth delta fuel last (stepDate delta new)
    else new

/-- `get_month`'s outer loop, `for _ in range(abs(delta))`, rebinding `last`
to the date the inner loop produced. -/
def monthIter (delta : Int) : Nat → Date → Date
  | 0, last => last
  | n + 1, last => monthIter delta n (seekNewMonth delta 42 last last)

/-- `get_month(delta=0)` (db.py:25-39), with `datetime.date.today()` made an
explicit `today` argument. -/
def get_month (today : Date) (delta : Int) : Date :=
  monthIter delta delta.natAbs today

/-- `make_rotating_tablename(prefix, delta=0)` (db.py:42-46):
`"{}_{}_{}".format(prefix, date.year, date.month)`. -/
def make_rotating_tablename (pfx : String) (delta : Int) (today : Date) : String :=
  let date := get_month today delta
  pfx ++ "_" ++ toString date.year ++ "_" ++ toString date.month

/-! ### Throughput-exceeded tracking (`track_provisioned` and its uses)

`track_provisioned` (db.py:181-191) wraps a method so that a
`ProvisionedThroughputExceededException` increments
`error.provisioned.<method name>` and is re-raised.  Which methods carry the
decorator, and which handle the exception by hand, is transcribed from the
class bodies below. -/

/-- The decorator `track_provisioned` applied to one call's outcome: a
throttled failure is re-raised after incrementing the per-operation counter;
anything else passes through with no metric. -/
def track_provisioned {α : Type} (name : String) (r : Except DbErr α) :
    Except DbErr α × List String :=
  match r with
  | .error .throttled => (.error .throttled, ["error.provisioned." ++ name])
  | other => (other, [])

/-- Every public store-touching method of `Storage`, `Message` and
`Router`. -/
inductive DbOp where
  | fetch_notifications | save_notification | delete_notification
  | register_channel | unregister_channel | all_channels | save_channels
  | store_message | update_message | delete_message | delete_messages
  | delete_messages_for_channel | delete_user | fetch_messages
  | get_uaid | register_user | drop_user | update_message_month | clear_node
deriving DecidableEq, Repr

/-- The Python `__name__` of each method (what `track_provisioned` uses to
build the counter name). -/
def opName : DbOp → String
  | .fetch_notifications => "fetch_notifications"
  | .save_notification => "save_notification"
  | .delete_notification => "delete_notification"
  | .register_channel => "register_channel"
  | .unregister_channel => "unregister_channel"
  | .all_channels => "all_channels"
  | .save_channels => "save_channels"
  | .store_message => "store_message"
  | .update_message => "update_message"
  | .delete_message => "delete_message"
  | .delete_messages => "delete_messages"
  | .delete_messages_for_channel => "delete_messages_for_channel"
  | .delete_user => "delete_user"
  | .fetch_messages => "fetch_messages"
  | .get_uaid => "get_uaid"
  | .register_user => "register_user"
  | .drop_user => "drop_user"
  | .update_message_month => "update_message_month"
  | .clear_node => "clear_node"

/-- What a caller observes when the backing store raises the
throughput-exceeded exception during one method call. -/
structure ThrottleObs where
  metrics : List String
  raised : Bool
  storeCalls : Nat

/-- Per-method throttle handling, transcribed from db.py:

* `delete_notification` (db.py:245-261) is **not** decorated; it catches the
  exception itself, increments the counter and returns `False`;
* `get_uaid` (db.py:478-501) is **not** decorated; it catches the exception
  itself, increments the counter and re-raises;
* `delete_messages` (db.py:420-427) carries **no** decorator and no handler:
  the exception propagates with no metric;
* every other method is wrapped by `@track_provisioned`.

No method loops over its store call: the failing request makes exactly one
attempt. -/
def throttleObs (op : DbOp) : ThrottleObs :=
  match op with
  | .delete_notification =>
    { metrics := ["error.provisioned.delete_notification"], raised := false,
      storeCalls := 1 }
  | .get_uaid =>
    { metrics := ["error.provisioned.get_uaid"], raised := true, storeCalls := 1 }
  | .delete_messages =>
    { metrics := [], raised := true, storeCalls := 1 }
  | other =>
    let r := track_provisioned (α := Unit) (opName other) (.error .throttled)
    { metrics := r.2,
      raised := match r.1 with | .error _ => true | .ok _ => false,
      storeCalls := 1 }

/-! ### Sequences of legacy-notification saves (for the monotonicity claim) -/

/-- Run a sequence of `save_notification` calls for one `(uaid, chid)`,
returning the final table and the versions whose save returned `True`,
in call order. -/
def runSaves (db : StorageDB) (uaid chid : String) : List Int → StorageDB × List Int
  | [] => (db, [])
  | v :: vs =>
    let r := save_notification db uaid chid v
    let rest := runSaves r.2 uaid chid vs
    (rest.1, if r.1 then v :: rest.2 else rest.2)

/-- The stored version attribute at `(uaid, chid)`. -/
def versionAt (db : StorageDB) (uaid chid : String) : Option AttrVal :=
  (db (uaid, chid)).bind (fun r => lookupA r "version")

/-! ### Dictionary lemmas -/

theorem lookupA_eraseA_self (m : AttrMap) (key : String) :
    lookupA (eraseA m key) key = none := by
  induction m with
  | nil => rfl
  | cons p rest ih =>
    obtain ⟨k, v⟩ := p
    by_cases h : k = key
    · simp [eraseA, h, ih]
    · simp [eraseA, lookupA, h, ih]

theorem lookupA_eraseA_ne (m : AttrMap) {k key : String} (h : k ≠ key) :
    lookupA (eraseA m key) k = lookupA m k := by
  induction m with
  | nil => rfl
  | cons p rest ih =>
    obtain ⟨a, v⟩ := p
    by_cases ha : a = key
    · subst ha
      have hk : a ≠ k := Ne.symm h
      simp [eraseA, lookupA, hk, ih]
    · by_cases hak : a = k
      · subst hak
        simp [eraseA, ha, lookupA]
      · simp [eraseA, ha, lookupA, hak, ih]

theorem lookupA_append (l₁ l₂ : AttrMap) (key : String) :
    lookupA (l₁ ++ l₂) key =
      match lookupA l₁ key with
      | some v => some v
      | none => lookupA l₂ key := by
  induction l₁ with
  | nil => rfl
  | cons p rest ih =>
    obtain ⟨a, v⟩ := p
    by_cases ha : a = key
    · simp [lookupA, ha]
    · simp [lookupA, ha, ih]

theorem lookupA_insertA_self (m : AttrMap) (key : String) (v : AttrVal) :
    lookupA (insertA m key v) key = some v := by
  simp [insertA, lookupA_append, lookupA_eraseA_self, lookupA]

theorem lookupA_insertA_ne (m : AttrMap) {k key : String} (v : AttrVal) (h : k ≠ key) :
    lookupA (insertA m key v) k = lookupA m k := by
  rw [insertA, lookupA_append, lookupA_eraseA_ne m h]
  cases hm : lookupA m k with
  | some w => rfl
  | none => simp [lookupA, Ne.symm h]

/-! ### Claim theorems -/

/-- C8: optional guard parameters are tested by truthiness, not presence:
`delete_notification` with `version=0` and `delete_message` with an
empty-string `updateid` both perform an unconditional delete, exactly as if
the guard had not been passed at all. -/
theorem claim_C8_truthy_guards (db : StorageDB) (mdb : MsgDB) (u c ch mid : String) :
    delete_notification false db u c (some 0) = delete_notification false db u c none ∧
    delete_notification false db u c (some 0) = (true, tdel db (u, c), []) ∧
    delete_message mdb u ch mid (some "") = delete_message mdb u ch mid none ∧
    delete_message mdb u ch mid (some "") = (true, tdel mdb (u, ch ++ ":" ++ mid)) := by
  refine ⟨rfl, ?_, rfl, ?_⟩
  · simp [delete_notification]
  · simp [delete_message]

/-- C10: `all_channels` reports `found=false` with the empty set exactly when
no sentinel record exists; a sentinel record whose `chids` attribute is
absent or empty yields `found=true` with the empty set, so the flag reports
record existence, not channel membership. -/
theorem claim_C10_all_channels (db : MsgDB) (u : String) :
    ((all_channels db u).1 = false ↔ db (u, " ") = none) ∧
    (db (u, " ") = none → all_channels db u = (false, [])) ∧
    (∀ r, db (u, " ") = some r → lookupA r "chids" = none →
      all_channels db u = (true, [])) ∧
    (∀ r, db (u, " ") = some r → lookupA r "chids" = some (.ss []) →
      all_channels db u = (true, [])) := by
  refine ⟨?_, ?_, ?_, ?_⟩
  · cases h : db (u, " ") with
    | none => simp [all_channels, h]
    | some r =>
      simp only [all_channels, h]
      cases hc : lookupA r "chids" with
      | none => simp
      | some v => cases v <;> simp
  · intro h; simp [all_channels, h]
  · intro r h hc; simp [all_channels, h, hc]
  · intro r h hc; simp [all_channels, h, hc]

/-- Witness for C10: a user with no sentinel record. -/
theorem claim_C10_witness :
    all_channels (fun _ => none) "u1" = (false, []) := by
  exact (claim_C10_all_channels (fun _ => none) "u1").2.1 rfl

/-- C9: `register_user` and `clear_node` mutate their caller-supplied
argument in every call, independent of the conditional write's outcome:
`register_user` pops the `"uaid"` key out of the dict, `clear_node` deletes
the `"node_id"` key from the item. -/
theorem claim_C9_argument_mutation (db rdb : RouterDB) (data item : AttrMap)
    (u rt cv : AttrVal)
    (hu : lookupA data "uaid" = some u)
    (hr : lookupA data "router_type" = some rt)
    (hc : lookupA data "connected_at" = some cv) :
    (∃ res, register_user db data = .ok res ∧ res.dataAfter = eraseA data "uaid") ∧
    (clear_node rdb item).itemAfter = eraseA item "node_id" := by
  constructor
  · have hr' : lookupA (eraseA data "uaid") "router_type" = some rt := by
      rw [lookupA_eraseA_ne data (by decide)]; exact hr
    have hc' : lookupA (eraseA data "uaid") "connected_at" = some cv := by
      rw [lookupA_eraseA_ne data (by decide)]; exact hc
    simp only [register_user, hu, hr', hc']
    split
    · exact ⟨_, rfl, rfl⟩
    · exact ⟨_, rfl, rfl⟩
  · simp only [clear_node]
    split <;> rfl

/-- Witness for C9 at a concrete call. -/
theorem claim_C9_witness :
    ∃ res,
      register_user (fun _ => none)
        [("uaid", .s "u1"), ("node_id", .s "n1"),
         ("connected_at", .n 0), ("router_type", .s "simplepush")] = .ok res ∧
      res.dataAfter =
        eraseA [("uaid", .s "u1"), ("node_id", .s "n1"),
                ("connected_at", .n 0), ("router_type", .s "simplepush")] "uaid" := by
  exact (claim_C9_argument_mutation (fun _ => none) (fun _ => none)
    [("uaid", .s "u1"), ("node_id", .s "n1"),
     ("connected_at", .n 0), ("router_type", .s "simplepush")] []
    (.s "u1") (.s "simplepush") (.n 0) rfl rfl rfl).1

/-! C1: the stored record that `clear_node` leaves behind. -/

/-- A populated router row for `uaid = "u1"`. -/
def c1Rec : AttrMap :=
  [("uaid", .s "u1"), ("node_id", .s "n1"), ("connected_at", .n 10),
   ("router_type", .s "webpush"), ("current_month", .s "message_2015_7")]

/-- A router table holding exactly `c1Rec`. -/
def c1Store : RouterDB := fun k => if k = .s "u1" then some c1Rec else none

/-- C1 counterexample: with a stored record whose `node_id`/`connected_at`
match the snapshot, `clear_node` succeeds, but the stored record afterwards
holds only the `uaid` key — `router_type`, `connected_at` and
`current_month` are erased, not preserved as the claim states. -/
theorem claim_C1_counterexample :
    (clear_node c1Store c1Rec).ok = true ∧
    lookupA c1Rec "node_id" = some (.s "n1") ∧
    lookupA c1Rec "connected_at" = some (.n 10) ∧
    lookupA c1Rec "router_type" = some (.s "webpush") ∧
    (clear_node c1Store c1Rec).db (.s "u1") = some [("uaid", .s "u1")] ∧
    ((clear_node c1Store c1Rec).db (.s "u1")).bind
      (fun r => lookupA r "router_type") = none := by
  refine ⟨rfl, rfl, rfl, rfl, rfl, rfl⟩

/-- C1 (amended): `clear_node` succeeds exactly when the stored `node_id` and
`connected_at` equal the snapshot's values; on failure the stored record is
unchanged; on success the stored record is **replaced by one holding only the
`uaid` key**, so `node_id` is cleared but `router_type`, `connected_at` and
`current_month` are erased as well. -/
theorem claim_C1_clear_node (db : RouterDB) (item : AttrMap)
    (uaidV nodeV connV : AttrVal)
    (hn : lookupA item "node_id" = some nodeV)
    (hc : lookupA item "connected_at" = some connV)
    (hu : lookupA item "uaid" = some uaidV) :
    ((clear_node db item).ok = true ↔
      ∃ rec, db uaidV = some rec ∧ lookupA rec "node_id" = some nodeV ∧
        lookupA rec "connected_at" = some connV) ∧
    ((clear_node db item).ok = true →
      (clear_node db item).db = tset db uaidV [("uaid", uaidV)]) ∧
    ((clear_node db item).ok = false → (clear_node db item).db = db) ∧
    (clear_node db item).itemAfter = eraseA item "node_id" := by
  have hc' : lookupA (eraseA item "node_id") "connected_at" = some connV := by
    rw [lookupA_eraseA_ne item (by decide)]; exact hc
  have hu' : lookupA (eraseA item "node_id") "uaid" = some uaidV := by
    rw [lookupA_eraseA_ne item (by decide)]; exact hu
  simp only [clear_node, hn, hc', hu', Option.getD_some]
  cases hdb : db uaidV with
  | none => simp [hdb]
  | some rec =>
    by_cases h1 : lookupA rec "node_id" = some nodeV
    · by_cases h2 : lookupA rec "connected_at" = some connV
      · simp [hdb, h1, h2]
      · simp [hdb, h1, h2]
    · simp [hdb, h1]

/-- Witness for C1 (amended) at a concrete matching snapshot. -/
theorem claim_C1_witness :
    (clear_node c1Store c1Rec).ok = true ∧
    (clear_node c1Store c1Rec).db = tset c1Store (.s "u1") [("uaid", .s "u1")] := by
  obtain ⟨hiff, hsucc, _, _⟩ :=
    claim_C1_clear_node c1Store c1Rec (.s "u1") (.s "n1") (.n 10) rfl rfl rfl
  have hok : (clear_node c1Store c1Rec).ok = true :=
    hiff.mpr ⟨c1Rec, rfl, rfl, rfl⟩
  exact ⟨hok, hsucc hok⟩

/-- The boolean condition `register_user` sends to the store, as a
proposition about the stored record. -/
theorem regCond_eq (rec : AttrMap) (rtVal : AttrVal) (c : Int) :
    (((decide (lookupA rec "router_type" = none) ||
        decide (lookupA rec "router_type" = some rtVal)) &&
      (decide (lookupA rec "node_id" = none) ||
        (match lookupA rec "connected_at" with
         | some cv => ltA cv (.n c)
         | none => false))) = true) ↔
    ((lookupA rec "router_type" = none ∨ lookupA rec "router_type" = some rtVal) ∧
     (lookupA rec "node_id" = none ∨
       ∃ s, lookupA rec "connected_at" = some (.n s) ∧ s < c)) := by
  cases hcv : lookupA rec "connected_at" with
  | none => simp
  | some v => cases v <;> simp [ltA]

/-- C2: `register_user` succeeds exactly when (no `router_type` stored, or it
equals the new one) and (no `node_id` stored, or the stored `connected_at`
is strictly below the new one); success returns the previous attributes,
condition failure returns `(false, {})` and leaves the table untouched; in
particular an equal `connected_at` on a record holding a `node_id` fails. -/
theorem claim_C2_register_user (db : RouterDB) (data : AttrMap)
    (uaidV rtVal : AttrVal) (c : Int)
    (hu : lookupA data "uaid" = some uaidV)
    (hr : lookupA data "router_type" = some rtVal)
    (hc : lookupA data "connected_at" = some (.n c)) :
    ∃ res, register_user db data = .ok res ∧
      (res.ok = true ↔
        (∀ rec, db uaidV = some rec →
          (lookupA rec "router_type" = none ∨
            lookupA rec "router_type" = some rtVal) ∧
          (lookupA rec "node_id" = none ∨
            ∃ s, lookupA rec "connected_at" = some (.n s) ∧ s < c))) ∧
      (res.ok = true → res.prev = (db uaidV).getD []) ∧
      (res.ok = false → res.prev = [] ∧ res.db = db) ∧
      (∀ rec, db uaidV = some rec → lookupA rec "node_id" ≠ none →
        lookupA rec "connected_at" = some (.n c) → res.ok = false) := by
  have hr' : lookupA (eraseA data "uaid") "router_type" = some rtVal := by
    rw [lookupA_eraseA_ne data (by decide)]; exact hr
  have hc' : lookupA (eraseA data "uaid") "connected_at" = some (.n c) := by
    rw [lookupA_eraseA_ne data (by decide)]; exact hc
  simp only [register_user, hu, hr', hc']
  cases hdb : db uaidV with
  | none =>
    refine ⟨_, rfl, ?_, ?_, ?_, ?_⟩ <;> simp [hdb]
  | some rec =>
    by_cases hP : (lookupA rec "router_type" = none ∨
        lookupA rec "router_type" = some rtVal) ∧
        (lookupA rec "node_id" = none ∨
          ∃ s, lookupA rec "connected_at" = some (.n s) ∧ s < c)
    · rw [if_pos ((regCond_eq rec rtVal c).mpr hP)]
      refine ⟨_, rfl, ?_, ?_, ?_, ?_⟩
      · simpa [hdb] using hP
      · intro _; simp [hdb]
      · intro hfalse; exact absurd hfalse (by simp)
      · intro rec' hrec' hnode hconn
        injection hrec' with hrec'
        subst hrec'
        rcases hP.2 with hnone | ⟨s, hs, hlt⟩
        · exact absurd hnone hnode
        · rw [hconn] at hs
          injection hs with hs
          injection hs with hs
          exact absurd hlt (by rw [hs]; exact lt_irrefl s)
    · rw [if_neg (fun hb => hP ((regCond_eq rec rtVal c).mp hb))]
      refine ⟨_, rfl, ?_, ?_, ?_, ?_⟩
      · simp only [hdb]
        constructor
        · intro hfalse; exact absurd hfalse (by simp)
        · intro hall; exact absurd (hall rec rfl) hP
      · intro hfalse; exact absurd hfalse (by simp)
      · intro _; exact ⟨rfl, rfl⟩
      · intro _ _ _ _; rfl

/-- Witness for C2: registering a fresh uaid succeeds. -/
theorem claim_C2_witness :
    ∃ res,
      register_user (fun _ => none)
        [("uaid", .s "u1"), ("node_id", .s "n1"),
         ("connected_at", .n 0), ("router_type", .s "simplepush")] = .ok res ∧
      res.ok = true := by
  obtain ⟨res, hres, hiff, -, -, -⟩ :=
    claim_C2_register_user (fun _ => none)
      [("uaid", .s "u1"), ("node_id", .s "n1"),
       ("connected_at", .n 0), ("router_type", .s "simplepush")]
      (.s "u1") (.s "simplepush") 0 rfl rfl rfl
  exact ⟨res, hres, hiff.mpr (fun rec h => by cases h)⟩

/-- C3 counterexample: `delete_messages` touches the store but carries no
`track_provisioned` decorator and no handler, so a throughput-exceeded
failure reaches the caller without any metrics increment. -/
theorem claim_C3_counterexample :
    ¬ ∀ op : DbOp, (throttleObs op).metrics = ["error.provisioned." ++ opName op] := by
  intro h
  have hdm := h .delete_messages
  simp [throttleObs, opName] at hdm

/-- C3 (amended): for every store-touching operation **except
`delete_messages`**, a throughput-exceeded failure increments the
per-operation counter before reaching the caller, is re-raised (except
`delete_notification`, which degrades to a boolean), and the operation makes
exactly one store attempt; `delete_messages` re-raises with no metric. -/
theorem claim_C3_throttle_tracking (op : DbOp) (hop : op ≠ .delete_messages) :
    (throttleObs op).metrics = ["error.provisioned." ++ opName op] ∧
    ((throttleObs op).raised = true ∨ op = .delete_notification) ∧
    (op = .delete_notification → (throttleObs op).raised = false) ∧
    (throttleObs op).storeCalls = 1 ∧
    (throttleObs .delete_messages).metrics = [] ∧
    (throttleObs .delete_messages).raised = true := by
  cases op <;> simp_all [throttleObs, opName, track_provisioned]

/-- Witness for C3 (amended) at `store_message`. -/
theorem claim_C3_witness :
    (throttleObs .store_message).metrics = ["error.provisioned.store_message"] := by
  exact (claim_C3_throttle_tracking .store_message (by decide)).1

/-! C5: what `delete_notification` reports. -/

/-- A storage table holding `(u1, c1) ↦ version 5`. -/
def c5Store : StorageDB :=
  fun k => if k = ("u1", "c1") then some (notifRec "u1" "c1" 5) else none

/-- C5: evaluating `delete_notification` at the failing input.  With stored
version `5` and expected version `3`, the conditional delete fails inside
the store wrapper, whose `False` result the source discards: the call
returns `true` while the record remains — the claim (and the function's own
docstring, "Whether or not the notification was able to be deleted") say a
mismatch yields false.  The throughput-degradation part of the claim does
hold: a throttled call increments the counter and returns false. -/
theorem claim_C5_delete_notification_bug :
    (delete_notification false c5Store "u1" "c1" (some 3)).1 = true ∧
    (delete_notification false c5Store "u1" "c1" (some 3)).2.1 ("u1", "c1") =
      some (notifRec "u1" "c1" 5) ∧
    delete_notification true c5Store "u1" "c1" (some 3) =
      (false, c5Store, ["error.provisioned.delete_notification"]) := by
  refine ⟨rfl, rfl, rfl⟩

/-! C6: `update_message`. -/

/-- A message record at `(u1, c1:m1)` with data and headers present. -/
def c6Rec : AttrMap :=
  [("uaid", .s "u1"), ("chidmessageid", .s "c1:m1"), ("data", .s "x"),
   ("headers", .s "h"), ("ttl", .n 60), ("timestamp", .n 100),
   ("updateid", .s "old")]

/-- A message table holding exactly `c6Rec`. -/
def c6Store : MsgDB := fun k => if k = ("u1", "c1:m1") then some c6Rec else none

/-- C6 counterexample: `data` is tested by truthiness, not presence.
Supplying the empty string as `data` — data is supplied — does not write it:
the update succeeds but **removes** the stored `data` and `headers`. -/
theorem claim_C6_counterexample :
    (update_message c6Store "u1" "c1" "m1" 90 (some (.s "")) none none 999
      "fresh").1 = true ∧
    lookupA c6Rec "data" = some (.s "x") ∧
    ((update_message c6Store "u1" "c1" "m1" 90 (some (.s "")) none none 999
        "fresh").2 ("u1", "c1:m1")).bind (fun r => lookupA r "data") = none ∧
    ((update_message c6Store "u1" "c1" "m1" 90 (some (.s "")) none none 999
        "fresh").2 ("u1", "c1:m1")).bind (fun r => lookupA r "headers") = none := by
  refine ⟨rfl, rfl, rfl, rfl⟩

/-- C6 (amended): `update_message` on a non-existent message (or one with no
`updateid` attribute) returns false and writes nothing; on an existing
record it stores the newly generated `updateid`, the new `ttl` and the
defaulted timestamp, writes `data` together with `headers` when the supplied
data is truthy (non-empty), and removes both `data` and `headers` when data
is absent or falsy. -/
theorem claim_C6_update_message (db : MsgDB) (u ch mid : String) (ttl : Int)
    (data headers : Option AttrVal) (timestamp : Option Int) (now : Int)
    (uid : String) :
    (db (u, ch ++ ":" ++ mid) = none →
      update_message db u ch mid ttl data headers timestamp now uid = (false, db)) ∧
    (∀ r, db (u, ch ++ ":" ++ mid) = some r → lookupA r "updateid" = none →
      update_message db u ch mid ttl data headers timestamp now uid = (false, db)) ∧
    (∀ r upd, db (u, ch ++ ":" ++ mid) = some r → lookupA r "updateid" = some upd →
      (update_message db u ch mid ttl data headers timestamp now uid).1 = true ∧
      ∃ r', (update_message db u ch mid ttl data headers timestamp now uid).2 =
          tset db (u, ch ++ ":" ++ mid) r' ∧
        lookupA r' "updateid" = some (.s uid) ∧
        lookupA r' "ttl" = some (.n ttl) ∧
        lookupA r' "timestamp" = some (.n (tsOf timestamp now)) ∧
        (truthyO data = true →
          lookupA r' "data" = some (data.getD .nullv) ∧
          lookupA r' "headers" = some (headers.getD .nullv)) ∧
        (truthyO data = false →
          lookupA r' "data" = none ∧ lookupA r' "headers" = none)) := by
  refine ⟨?_, ?_, ?_⟩
  · intro h; simp [update_message, h]
  · intro r h hupd; simp [update_message, h, hupd]
  · intro r upd h hupd
    by_cases hd : truthyO data = true
    · have heq : update_message db u ch mid ttl data headers timestamp now uid =
          (true, tset db (u, ch ++ ":" ++ mid)
            (insertA (insertA (insertA (insertA (insertA r "ttl" (.n ttl))
              "timestamp" (.n (tsOf timestamp now))) "updateid" (.s uid))
              "data" (data.getD .nullv)) "headers" (headers.getD .nullv))) := by
        simp [update_message, h, hupd, hd]
      refine ⟨by rw [heq], _, by rw [heq], ?_, ?_, ?_, ?_, ?_⟩
      · rw [lookupA_insertA_ne _ _ (by decide), lookupA_insertA_ne _ _ (by decide),
          lookupA_insertA_self]
      · rw [lookupA_insertA_ne _ _ (by decide), lookupA_insertA_ne _ _ (by decide),
          lookupA_insertA_ne _ _ (by decide), lookupA_insertA_ne _ _ (by decide),
          lookupA_insertA_self]
      · rw [lookupA_insertA_ne _ _ (by decide), lookupA_insertA_ne _ _ (by decide),
          lookupA_insertA_ne _ _ (by decide), lookupA_insertA_self]
      · intro _
        constructor
        · rw [lookupA_insertA_ne _ _ (by decide), lookupA_insertA_self]
        · rw [lookupA_insertA_self]
      · intro hfd; rw [hd] at hfd; cases hfd
    · have hd' : truthyO data = false := by
        cases hb : truthyO data
        · rfl
        · exact absurd hb hd
      have heq : update_message db u ch mid ttl data headers timestamp now uid =
          (true, tset db (u, ch ++ ":" ++ mid)
            (eraseA (eraseA (insertA (insertA (insertA r "ttl" (.n ttl))
              "timestamp" (.n (tsOf timestamp now))) "updateid" (.s uid))
              "data") "headers")) := by
        simp [update_message, h, hupd, hd']
      refine ⟨by rw [heq], _, by rw [heq], ?_, ?_, ?_, ?_, ?_⟩
      · rw [lookupA_eraseA_ne _ (by decide), lookupA_eraseA_ne _ (by decide),
          lookupA_insertA_self]
      · rw [lookupA_eraseA_ne _ (by decide), lookupA_eraseA_ne _ (by decide),
          lookupA_insertA_ne _ _ (by decide), lookupA_insertA_ne _ _ (by decide),
          lookupA_insertA_self]
      · rw [lookupA_eraseA_ne _ (by decide), lookupA_eraseA_ne _ (by decide),
          lookupA_insertA_ne _ _ (by decide), lookupA_insertA_self]
      · intro htd; rw [hd'] at htd; cases htd
      · intro _
        constructor
        · rw [lookupA_eraseA_ne _ (by decide), lookupA_eraseA_self]
        · rw [lookupA_eraseA_self]

/-- Witness for C6 (amended): updating an existing message with truthy data. -/
theorem claim_C6_witness :
    (update_message c6Store "u1" "c1" "m1" 90 (some (.s "y")) (some (.s "hh"))
      (some 200) 999 "fresh").1 = true := by
  exact ((claim_C6_update_message c6Store "u1" "c1" "m1" 90 (some (.s "y"))
    (some (.s "hh")) (some 200) 999 "fresh").2.2 c6Rec (.s "old") rfl rfl).1

/-! C4: monotonicity of legacy-notification saves. -/

/-- Running maximum of a list of versions, starting from an optional
already-stored version. -/
def foldSome (o : Option Int) (l : List Int) : Option Int :=
  l.foldl (fun a v => some (match a with | none => v | some p => max p v)) o

/-- The `(uaid, chid)` cell of the storage table is either empty or holds
exactly the record a successful save wrote, with version `p`. -/
def notifCell (db : StorageDB) (u c : String) (o : Option Int) : Prop :=
  (o = none ∧ db (u, c) = none) ∨
    ∃ p, o = some p ∧ db (u, c) = some (notifRec u c p)

theorem save_cell (db : StorageDB) (u c : String) (v : Int) (o : Option Int)
    (h : notifCell db u c o) :
    ((save_notification db u c v).1 = true →
      notifCell (save_notification db u c v).2 u c (some v)) ∧
    ((save_notification db u c v).1 = false →
      notifCell (save_notification db u c v).2 u c o) ∧
    ((save_notification db u c v).1 = true ↔
      (o = none ∨ ∃ p, o = some p ∧ p < v)) := by
  rcases h with ⟨ho, hdb⟩ | ⟨p, ho, hdb⟩
  · subst ho
    have hred : save_notification db u c v = (true, tset db (u, c) (notifRec u c v)) := by
      simp [save_notification, hdb]
    rw [hred]
    refine ⟨fun _ => .inr ⟨v, rfl, by simp [tset]⟩, ?_, by simp⟩
    intro hfalse
    simp at hfalse
  · subst ho
    have hver : lookupA (notifRec u c p) "version" = some (.n p) := rfl
    by_cases hlt : p < v
    · have hred : save_notification db u c v = (true, tset db (u, c) (notifRec u c v)) := by
        simp [save_notification, hdb, hver, ltA, hlt]
      rw [hred]
      refine ⟨fun _ => .inr ⟨v, rfl, by simp [tset]⟩, ?_, by simp [hlt]⟩
      intro hfalse
      simp at hfalse
    · have hred : save_notification db u c v = (false, db) := by
        simp [save_notification, hdb, hver, ltA, hlt]
      rw [hred]
      refine ⟨?_, fun _ => .inr ⟨p, rfl, hdb⟩, by simp [hlt]⟩
      intro htrue
      simp at htrue

theorem runSaves_cell (u c : String) : ∀ (vs : List Int) (db : StorageDB)
    (o : Option Int), notifCell db u c o →
    notifCell (runSaves db u c vs).1 u c (foldSome o (runSaves db u c vs).2) := by
  intro vs
  induction vs with
  | nil => intro db o h; exact h
  | cons v vs ih =>
    intro db o h
    obtain ⟨htrue, hfalse, hiff⟩ := save_cell db u c v o h
    simp only [runSaves]
    cases hok : (save_notification db u c v).1 with
    | true =>
      rw [if_pos (rfl : true = true)]
      have hstep : foldSome o (v :: (runSaves (save_notification db u c v).2 u c vs).2) =
          foldSome (some v) (runSaves (save_notification db u c v).2 u c vs).2 := by
        rcases hiff.mp hok with ho | ⟨p, ho, hp⟩
        · subst ho; rfl
        · subst ho
          simp [foldSome, List.foldl_cons, max_eq_right (le_of_lt hp)]
      rw [hstep]
      exact ih (save_notification db u c v).2 (some v) (htrue hok)
    | false =>
      rw [if_neg (by simp)]
      exact ih (save_notification db u c v).2 o (hfalse hok)

theorem foldSome_some (l : List Int) : ∀ a : Int, foldSome (some a) l = some (l.foldl max a) := by
  induction l with
  | nil => intro a; rfl
  | cons v vs ih =>
    intro a
    have h := ih (max a v)
    simp only [foldSome, List.foldl_cons] at h ⊢
    exact h

theorem foldSome_none_max (l : List Int) : foldSome none l = l.max? := by
  cases l with
  | nil => rfl
  | cons a as =>
    have h : foldSome none (a :: as) = foldSome (some a) as := rfl
    rw [h, foldSome_some]
    rfl

/-- C4: a legacy-notification save succeeds exactly when no record exists or
the stored version is strictly lower; a failed save does not mutate the
table, and a save with a lower version than stored is a no-op returning
false; consequently, starting from an empty cell, any sequence of saves
leaves the stored version equal to the maximum version whose save
succeeded. -/
theorem claim_C4_save_monotonic (u c : String) (db dbA : StorageDB) (v : Int)
    (vs : List Int) (h0 : db (u, c) = none) :
    ((save_notification dbA u c v).1 = true ↔
      (dbA (u, c) = none ∨ ∃ r, dbA (u, c) = some r ∧
        (lookupA r "version" = none ∨
          ∃ p, lookupA r "version" = some (.n p) ∧ p < v))) ∧
    ((save_notification dbA u c v).1 = false →
      (save_notification dbA u c v).2 = dbA) ∧
    (∀ p, versionAt dbA u c = some (.n p) → v < p →
      save_notification dbA u c v = (false, dbA)) ∧
    versionAt (runSaves db u c vs).1 u c =
      ((runSaves db u c vs).2).max?.map AttrVal.n := by
  refine ⟨?_, ?_, ?_, ?_⟩
  · cases hA : dbA (u, c) with
    | none => simp [save_notification, hA]
    | some r =>
      cases hver : lookupA r "version" with
      | none => simp [save_notification, hA, hver]
      | some w =>
        cases w with
        | n p =>
          by_cases hplt : p < v <;> simp [save_notification, hA, hver, ltA, hplt]
        | s sv => simp [save_notification, hA, hver, ltA]
        | ss l => simp [save_notification, hA, hver, ltA]
        | nullv => simp [save_notification, hA, hver, ltA]
  · simp only [save_notification]
    split
    · intro hfalse; cases hfalse
    · intro _; rfl
  · intro p hv hlt
    cases hA : dbA (u, c) with
    | none => rw [versionAt, hA] at hv; cases hv
    | some r =>
      rw [versionAt, hA] at hv
      simp only [Option.some_bind] at hv
      have hnlt : ¬ p < v := not_lt.mpr (le_of_lt hlt)
      simp [save_notification, hA, hv, ltA, hnlt]
  · have hcell := runSaves_cell u c vs db none (.inl ⟨rfl, h0⟩)
    rw [foldSome_none_max] at hcell
    rcases hcell with ⟨hmax, hdb⟩ | ⟨p, hmax, hdb⟩
    · rw [versionAt, hdb, hmax]; rfl
    · rw [versionAt, hdb, hmax]; rfl

/-- Witness for C4 at a concrete sequence of saves. -/
theorem claim_C4_witness :
    (save_notification (fun _ => none) "u1" "c1" 3).1 = true ∧
    versionAt (runSaves (fun _ => none) "u1" "c1" [3, 1, 5, 5, 7]).1 "u1" "c1" =
      ([3, 1, 5, 5, 7].filter (fun v => decide (v = 3) || decide (v = 5) ||
        decide (v = 7))).max?.map AttrVal.n := by
  obtain ⟨hiff, -, -, hseq⟩ :=
    claim_C4_save_monotonic "u1" "c1" (fun _ => none) (fun _ => none) 3
      [3, 1, 5, 5, 7] rfl
  constructor
  · exact hiff.mpr (.inl rfl)
  · rw [hseq]
    rfl

/-! C7: calendar facts about `get_month` / `make_rotating_tablename`. -/

/-- `(year, month)` of the calendar month after `d`'s. -/
def monthSucc (d : Date) : Nat × Nat :=
  if d.month = 12 then (d.year + 1, 1) else (d.year, d.month + 1)

/-- `(year, month)` of the calendar month before `d`'s. -/
def monthPred (d : Date) : Nat × Nat :=
  if d.month = 1 then (d.year - 1, 12) else (d.year, d.month - 1)

theorem daysInMonth_ge (y m : Nat) : 28 ≤ daysInMonth y m := by
  unfold daysInMonth
  split
  · split <;> omega
  · split <;> omega

theorem daysInMonth_le (y m : Nat) : daysInMonth y m ≤ 31 := by
  unfold daysInMonth
  split
  · split <;> omega
  · split <;> omega

theorem daysInMonth_twelve (y : Nat) : daysInMonth y 12 = 31 := by
  simp [daysInMonth]

theorem monthSucc_ne (d : Date) : (monthSucc d).2 ≠ d.month := by
  unfold monthSucc
  by_cases h : d.month = 12
  · rw [if_pos h]
    show (1 : Nat) ≠ d.month
    omega
  · rw [if_neg h]
    show d.month + 1 ≠ d.month
    omega

theorem monthPred_ne (d : Date) (hv : d.Valid) : (monthPred d).2 ≠ d.month := by
  have h1 := hv.1
  unfold monthPred
  by_cases h : d.month = 1
  · rw [if_pos h]
    show (12 : Nat) ≠ d.month
    omega
  · rw [if_neg h]
    show d.month - 1 ≠ d.month
    omega

theorem addDays_small : ∀ (n : Nat) (d : Date), d.Valid →
    d.day + n ≤ daysInMonth d.year d.month →
    addDays d n = ⟨d.year, d.month, d.day + n⟩ := by
  intro n
  induction n with
  | zero => intro d _ _; cases d; rfl
  | succ n ih =>
    intro d hv hle
    obtain ⟨h1, h2, h3, h4⟩ := hv
    have hnd : nextDay d = ⟨d.year, d.month, d.day + 1⟩ := by
      unfold nextDay
      rw [if_pos (by omega)]
    have hih := ih ⟨d.year, d.month, d.day + 1⟩
      ⟨h1, h2, by show 1 ≤ d.day + 1; omega,
        by show d.day + 1 ≤ daysInMonth d.year d.month; omega⟩
      (by show d.day + 1 + n ≤ daysInMonth d.year d.month; omega)
    calc addDays d (n + 1) = addDays (nextDay d) n := rfl
      _ = ⟨d.year, d.month, d.day + 1 + n⟩ := by rw [hnd]; exact hih
      _ = ⟨d.year, d.month, d.day + (n + 1)⟩ := by congr 1; omega

theorem addDays_add (a b : Nat) : ∀ d : Date,
    addDays d (a + b) = addDays (addDays d a) b := by
  induction a with
  | zero =>
    intro d
    have h : 0 + b = b := by omega
    rw [h]
    rfl
  | succ a ih =>
    intro d
    have h : a + 1 + b = (a + b) + 1 := by omega
    rw [h]
    calc addDays d ((a + b) + 1) = addDays (nextDay d) (a + b) := rfl
      _ = addDays (addDays (nextDay d) a) b := ih (nextDay d)
      _ = addDays (addDays d (a + 1)) b := rfl

theorem addDays_cross (n : Nat) (d : Date) (hv : d.Valid)
    (h1 : daysInMonth d.year d.month < d.day + n)
    (h2 : d.day + n ≤ daysInMonth d.year d.month + 28) :
    addDays d n =
      ⟨(monthSucc d).1, (monthSucc d).2, d.day + n - daysInMonth d.year d.month⟩ := by
  obtain ⟨hm1, hm2, hd1, hd2⟩ := hv
  have hk : n = (daysInMonth d.year d.month - d.day) + 1 +
      (d.day + n - daysInMonth d.year d.month - 1) := by omega
  have hstep1 : addDays d (daysInMonth d.year d.month - d.day) =
      ⟨d.year, d.month, daysInMonth d.year d.month⟩ := by
    have := addDays_small (daysInMonth d.year d.month - d.day) d
      ⟨hm1, hm2, hd1, hd2⟩ (by omega)
    rw [this]
    congr 1
    omega
  have hfirst : nextDay ⟨d.year, d.month, daysInMonth d.year d.month⟩ =
      ⟨(monthSucc d).1, (monthSucc d).2, 1⟩ := by
    unfold nextDay monthSucc
    rw [if_neg (by
      show ¬ (daysInMonth d.year d.month < daysInMonth d.year d.month)
      omega)]
    by_cases h12 : d.month = 12
    · rw [if_neg (by show ¬ (d.month < 12); omega), if_pos h12]
    · rw [if_pos (by show d.month < 12; omega), if_neg h12]
  have hrest : addDays ⟨(monthSucc d).1, (monthSucc d).2, 1⟩
      (d.day + n - daysInMonth d.year d.month - 1) =
      ⟨(monthSucc d).1, (monthSucc d).2,
        d.day + n - daysInMonth d.year d.month⟩ := by
    have hmv : (1 : Nat) ≤ (monthSucc d).2 ∧ (monthSucc d).2 ≤ 12 := by
      unfold monthSucc
      split
      · omega
      · constructor <;> omega
    have hge := daysInMonth_ge (monthSucc d).1 (monthSucc d).2
    have := addDays_small (d.day + n - daysInMonth d.year d.month - 1)
      ⟨(monthSucc d).1, (monthSucc d).2, 1⟩
      ⟨hmv.1, hmv.2, le_refl 1,
        by show 1 ≤ daysInMonth (monthSucc d).1 (monthSucc d).2; omega⟩
      (by
        show 1 + (d.day + n - daysInMonth d.year d.month - 1) ≤
          daysInMonth (monthSucc d).1 (monthSucc d).2
        omega)
    rw [this]
    congr 1
    show 1 + (d.day + n - daysInMonth d.year d.month - 1) =
      d.day + n - daysInMonth d.year d.month
    omega
  calc addDays d n
      = addDays d ((daysInMonth d.year d.month - d.day) + 1 +
          (d.day + n - daysInMonth d.year d.month - 1)) := by rw [← hk]
    _ = addDays (addDays d ((daysInMonth d.year d.month - d.day) + 1))
          (d.day + n - daysInMonth d.year d.month - 1) := addDays_add _ _ d
    _ = addDays (addDays (addDays d (daysInMonth d.year d.month - d.day)) 1)
          (d.day + n - daysInMonth d.year d.month - 1) := by
        rw [addDays_add]
    _ = addDays (nextDay ⟨d.year, d.month, daysInMonth d.year d.month⟩)
          (d.day + n - daysInMonth d.year d.month - 1) := by
        rw [hstep1]; rfl
    _ = ⟨(monthSucc d).1, (monthSucc d).2,
          d.day + n - daysInMonth d.year d.month⟩ := by
        rw [hfirst]; exact hrest

theorem subDays_small : ∀ (n : Nat) (d : Date), d.Valid → n < d.day →
    subDays d n = ⟨d.year, d.month, d.day - n⟩ := by
  intro n
  induction n with
  | zero => intro d _ _; cases d; rfl
  | succ n ih =>
    intro d hv hlt
    obtain ⟨h1, h2, h3, h4⟩ := hv
    have hpd : prevDay d = ⟨d.year, d.month, d.day - 1⟩ := by
      unfold prevDay
      rw [if_pos (by omega)]
    have hih := ih ⟨d.year, d.month, d.day - 1⟩
      ⟨h1, h2, by show 1 ≤ d.day - 1; omega,
        by show d.day - 1 ≤ daysInMonth d.year d.month; omega⟩
      (by show n < d.day - 1; omega)
    calc subDays d (n + 1) = subDays (prevDay d) n := rfl
      _ = ⟨d.year, d.month, d.day - 1 - n⟩ := by rw [hpd]; exact hih
      _ = ⟨d.year, d.month, d.day - (n + 1)⟩ := by congr 1; omega

theorem subDays_add (a b : Nat) : ∀ d : Date,
    subDays d (a + b) = subDays (subDays d a) b := by
  induction a with
  | zero =>
    intro d
    have h : 0 + b = b := by omega
    rw [h]
    rfl
  | succ a ih =>
    intro d
    have h : a + 1 + b = (a + b) + 1 := by omega
    rw [h]
    calc subDays d ((a + b) + 1) = subDays (prevDay d) (a + b) := rfl
      _ = subDays (subDays (prevDay d) a) b := ih (prevDay d)
      _ = subDays (subDays d (a + 1)) b := rfl

theorem subDays_cross (n : Nat) (d : Date) (hv : d.Valid)
    (h1 : d.day ≤ n) (h2 : n ≤ d.day + 27) :
    subDays d n = ⟨(monthPred d).1, (monthPred d).2,
      daysInMonth (monthPred d).1 (monthPred d).2 - (n - d.day)⟩ := by
  obtain ⟨hm1, hm2, hd1, hd2⟩ := hv
  have hk : n = (d.day - 1) + 1 + (n - d.day) := by omega
  have hstep1 : subDays d (d.day - 1) = ⟨d.year, d.month, 1⟩ := by
    have := subDays_small (d.day - 1) d ⟨hm1, hm2, hd1, hd2⟩ (by omega)
    rw [this]
    congr 1
    omega
  have hfirst : prevDay ⟨d.year, d.month, 1⟩ =
      ⟨(monthPred d).1, (monthPred d).2,
        daysInMonth (monthPred d).1 (monthPred d).2⟩ := by
    unfold prevDay monthPred
    rw [if_neg (by show ¬ ((1 : Nat) < 1); omega)]
    by_cases hm : d.month = 1
    · rw [if_neg (by show ¬ (1 < d.month); omega), if_pos hm]
      exact rfl
    · rw [if_pos (by show 1 < d.month; omega), if_neg hm]
  have hge := daysInMonth_ge (monthPred d).1 (monthPred d).2
  have hmv : (1 : Nat) ≤ (monthPred d).2 ∧ (monthPred d).2 ≤ 12 := by
    unfold monthPred
    split
    · omega
    · constructor <;> omega
  have hrest : subDays ⟨(monthPred d).1, (monthPred d).2,
      daysInMonth (monthPred d).1 (monthPred d).2⟩ (n - d.day) =
      ⟨(monthPred d).1, (monthPred d).2,
        daysInMonth (monthPred d).1 (monthPred d).2 - (n - d.day)⟩ := by
    have := subDays_small (n - d.day)
      ⟨(monthPred d).1, (monthPred d).2,
        daysInMonth (monthPred d).1 (monthPred d).2⟩
      ⟨hmv.1, hmv.2,
        by show 1 ≤ daysInMonth (monthPred d).1 (monthPred d).2; omega,
        le_refl _⟩
      (by show n - d.day < daysInMonth (monthPred d).1 (monthPred d).2; omega)
    exact this
  calc subDays d n
      = subDays d ((d.day - 1) + 1 + (n - d.day)) := by rw [← hk]
    _ = subDays (subDays d ((d.day - 1) + 1)) (n - d.day) := subDays_add _ _ d
    _ = subDays (subDays (subDays d (d.day - 1)) 1) (n - d.day) := by
        rw [subDays_add]
    _ = subDays (prevDay ⟨d.year, d.month, 1⟩) (n - d.day) := by
        rw [hstep1]; rfl
    _ = ⟨(monthPred d).1, (monthPred d).2,
          daysInMonth (monthPred d).1 (monthPred d).2 - (n - d.day)⟩ := by
        rw [hfirst]; exact hrest

theorem seek_step (delta : Int) (fuel : Nat) (last new : Date)
    (h : new.month = last.month) :
    seekNewMonth delta (fuel + 1) last new =
      seekNewMonth delta fuel last (stepDate delta new) := by
  simp only [seekNewMonth]
  rw [if_pos h]

theorem seek_stop (delta : Int) (fuel : Nat) (last new : Date)
    (h : ¬ new.month = last.month) :
    seekNewMonth delta (fuel + 1) last new = new := by
  simp only [seekNewMonth]
  rw [if_neg h]

theorem seek_forward (delta : Int) (hpos : ¬ delta < 0) (f : Nat) (d : Date)
    (hv : d.Valid) :
    ((seekNewMonth delta (f + 4) d d).year,
      (seekNewMonth delta (f + 4) d d).month) = monthSucc d := by
  have hm1 := hv.1
  have hm2 := hv.2.1
  have hd1 := hv.2.2.1
  have hd2 := hv.2.2.2
  have hge := daysInMonth_ge d.year d.month
  have hle := daysInMonth_le d.year d.month
  have hsd : ∀ x : Date, stepDate delta x = addDays x 14 := by
    intro x; simp [stepDate, hpos]
  have e4 : f + 4 = (f + 3) + 1 := by omega
  have e3 : f + 3 = (f + 2) + 1 := by omega
  have e2 : f + 2 = (f + 1) + 1 := by omega
  by_cases hA : daysInMonth d.year d.month < d.day + 14
  · have hcross := addDays_cross 14 d hv hA (by omega)
    rw [e4, seek_step delta (f + 3) d d rfl, hsd d, hcross, e3,
      seek_stop delta (f + 2) d _ (monthSucc_ne d)]
  · have hsmall : addDays d 14 = ⟨d.year, d.month, d.day + 14⟩ :=
      addDays_small 14 d hv (by omega)
    have hv1 : (⟨d.year, d.month, d.day + 14⟩ : Date).Valid :=
      ⟨hm1, hm2, by show 1 ≤ d.day + 14; omega,
        by show d.day + 14 ≤ daysInMonth d.year d.month; omega⟩
    rw [e4, seek_step delta (f + 3) d d rfl, hsd d, hsmall]
    by_cases hB : daysInMonth d.year d.month < d.day + 28
    · have hcross : addDays (⟨d.year, d.month, d.day + 14⟩ : Date) 14 =
          ⟨(monthSucc d).1, (monthSucc d).2,
            d.day + 28 - daysInMonth d.year d.month⟩ :=
        addDays_cross 14 ⟨d.year, d.month, d.day + 14⟩ hv1
          (by show daysInMonth d.year d.month < d.day + 14 + 14; omega)
          (by show d.day + 14 + 14 ≤ daysInMonth d.year d.month + 28; omega)
      rw [e3, seek_step delta (f + 2) d ⟨d.year, d.month, d.day + 14⟩ rfl,
        hsd _, hcross, e2, seek_stop delta (f + 1) d _ (monthSucc_ne d)]
    · have hsmall2 : addDays (⟨d.year, d.month, d.day + 14⟩ : Date) 14 =
          ⟨d.year, d.month, d.day + 28⟩ :=
        addDays_small 14 ⟨d.year, d.month, d.day + 14⟩ hv1
          (by show d.day + 14 + 14 ≤ daysInMonth d.year d.month; omega)
      have hv2 : (⟨d.year, d.month, d.day + 28⟩ : Date).Valid :=
        ⟨hm1, hm2, by show 1 ≤ d.day + 28; omega,
          by show d.day + 28 ≤ daysInMonth d.year d.month; omega⟩
      have hcross : addDays (⟨d.year, d.month, d.day + 28⟩ : Date) 14 =
          ⟨(monthSucc d).1, (monthSucc d).2,
            d.day + 42 - daysInMonth d.year d.month⟩ :=
        addDays_cross 14 ⟨d.year, d.month, d.day + 28⟩ hv2
          (by show daysInMonth d.year d.month < d.day + 28 + 14; omega)
          (by show d.day + 28 + 14 ≤ daysInMonth d.year d.month + 28; omega)
      rw [e3, seek_step delta (f + 2) d ⟨d.year, d.month, d.day + 14⟩ rfl,
        hsd _, hsmall2, e2,
        seek_step delta (f + 1) d ⟨d.year, d.month, d.day + 28⟩ rfl,
        hsd _, hcross, seek_stop delta f d _ (monthSucc_ne d)]

theorem seek_backward (delta : Int) (hneg : delta < 0) (f : Nat) (d : Date)
    (hv : d.Valid) :
    ((seekNewMonth delta (f + 4) d d).year,
      (seekNewMonth delta (f + 4) d d).month) = monthPred d := by
  have hm1 := hv.1
  have hm2 := hv.2.1
  have hd1 := hv.2.2.1
  have hd2 := hv.2.2.2
  have hge := daysInMonth_ge d.year d.month
  have hle := daysInMonth_le d.year d.month
  have hsd : ∀ x : Date, stepDate delta x = subDays x 14 := by
    intro x; simp [stepDate, hneg]
  have e4 : f + 4 = (f + 3) + 1 := by omega
  have e3 : f + 3 = (f + 2) + 1 := by omega
  have e2 : f + 2 = (f + 1) + 1 := by omega
  by_cases hA : d.day ≤ 14
  · have hcross := subDays_cross 14 d hv hA (by omega)
    rw [e4, seek_step delta (f + 3) d d rfl, hsd d, hcross, e3,
      seek_stop delta (f + 2) d _ (monthPred_ne d hv)]
  · have hsmall : subDays d 14 = ⟨d.year, d.month, d.day - 14⟩ :=
      subDays_small 14 d hv (by omega)
    have hv1 : (⟨d.year, d.month, d.day - 14⟩ : Date).Valid :=
      ⟨hm1, hm2, by show 1 ≤ d.day - 14; omega,
        by show d.day - 14 ≤ daysInMonth d.year d.month; omega⟩
    rw [e4, seek_step delta (f + 3) d d rfl, hsd d, hsmall]
    by_cases hB : d.day - 14 ≤ 14
    · have hcross : subDays (⟨d.year, d.month, d.day - 14⟩ : Date) 14 =
          ⟨(monthPred d).1, (monthPred d).2,
            daysInMonth (monthPred d).1 (monthPred d).2 - (14 - (d.day - 14))⟩ :=
        subDays_cross 14 ⟨d.year, d.month, d.day - 14⟩ hv1
          (by show d.day - 14 ≤ 14; omega)
          (by show 14 ≤ d.day - 14 + 27; omega)
      rw [e3, seek_step delta (f + 2) d ⟨d.year, d.month, d.day - 14⟩ rfl,
        hsd _, hcross, e2, seek_stop delta (f + 1) d _ (monthPred_ne d hv)]
    · have hsmall2 : subDays (⟨d.year, d.month, d.day - 14⟩ : Date) 14 =
          ⟨d.year, d.month, d.day - 28⟩ :=
        subDays_small 14 ⟨d.year, d.month, d.day - 14⟩ hv1
          (by show 14 < d.day - 14; omega)
      have hv2 : (⟨d.year, d.month, d.day - 28⟩ : Date).Valid :=
        ⟨hm1, hm2, by show 1 ≤ d.day - 28; omega,
          by show d.day - 28 ≤ daysInMonth d.year d.month; omega⟩
      have hcross : subDays (⟨d.year, d.month, d.day - 28⟩ : Date) 14 =
          ⟨(monthPred d).1, (monthPred d).2,
            daysInMonth (monthPred d).1 (monthPred d).2 - (14 - (d.day - 28))⟩ :=
        subDays_cross 14 ⟨d.year, d.month, d.day - 28⟩ hv2
          (by show d.day - 28 ≤ 14; omega)
          (by show 14 ≤ d.day - 28 + 27; omega)
      rw [e3, seek_step delta (f + 2) d ⟨d.year, d.month, d.day - 14⟩ rfl,
        hsd _, hsmall2, e2,
        seek_step delta (f + 1) d ⟨d.year, d.month, d.day - 28⟩ rfl,
        hsd _, hcross, seek_stop delta f d _ (monthPred_ne d hv)]

theorem get_month_one (today : Date) (hv : today.Valid) :
    ((get_month today 1).year, (get_month today 1).month) = monthSucc today := by
  have h : get_month today 1 = seekNewMonth 1 (38 + 4) today today := rfl
  rw [h]
  exact seek_forward 1 (by norm_num) 38 today hv

theorem get_month_neg_one (today : Date) (hv : today.Valid) :
    ((get_month today (-1)).year, (get_month today (-1)).month) =
      monthPred today := by
  have h : get_month today (-1) = seekNewMonth (-1) (38 + 4) today today := rfl
  rw [h]
  exact seek_backward (-1) (by norm_num) 38 today hv

/-- C7: `make_rotating_tablename` formats `"{prefix}_{year}_{month}"` with
the month unpadded; `delta=0` names today's calendar month, `delta=1`
exactly the next calendar month and `delta=-1` exactly the previous one,
whatever the day of the month `today` falls on. -/
theorem claim_C7_partition_name (pfx : String) (today : Date) (hv : today.Valid) :
    get_month today 0 = today ∧
    make_rotating_tablename pfx 0 today =
      pfx ++ "_" ++ toString today.year ++ "_" ++ toString today.month ∧
    ((get_month today 1).year, (get_month today 1).month) = monthSucc today ∧
    ((get_month today (-1)).year, (get_month today (-1)).month) =
      monthPred today ∧
    make_rotating_tablename pfx 1 today =
      pfx ++ "_" ++ toString (monthSucc today).1 ++ "_" ++
        toString (monthSucc today).2 ∧
    make_rotating_tablename pfx (-1) today =
      pfx ++ "_" ++ toString (monthPred today).1 ++ "_" ++
        toString (monthPred today).2 := by
  have h1 := get_month_one today hv
  have h2 := get_month_neg_one today hv
  have h1y : (get_month today 1).year = (monthSucc today).1 := congrArg Prod.fst h1
  have h1m : (get_month today 1).month = (monthSucc today).2 := congrArg Prod.snd h1
  have h2y : (get_month today (-1)).year = (monthPred today).1 := congrArg Prod.fst h2
  have h2m : (get_month today (-1)).month = (monthPred today).2 := congrArg Prod.snd h2
  refine ⟨rfl, rfl, h1, h2, ?_, ?_⟩
  · show pfx ++ "_" ++ toString (get_month today 1).year ++ "_" ++
      toString (get_month today 1).month = _
    rw [h1y, h1m]
  · show pfx ++ "_" ++ toString (get_month today (-1)).year ++ "_" ++
      toString (get_month today (-1)).month = _
    rw [h2y, h2m]

/-- Witness for C7 at a concrete end-of-month date. -/
theorem claim_C7_witness :
    make_rotating_tablename "message" 0 ⟨2015, 7, 31⟩ = "message_2015_7" ∧
    make_rotating_tablename "message" 1 ⟨2015, 7, 31⟩ = "message_2015_8" ∧
    make_rotating_tablename "message" (-1) ⟨2015, 7, 31⟩ = "message_2015_6" := by
  obtain ⟨-, h0, -, -, hp, hm⟩ :=
    claim_C7_partition_name "message" ⟨2015, 7, 31⟩ (by decide)
  refine ⟨?_, ?_, ?_⟩
  · rw [h0]; rfl
  · rw [hp]; rfl
  · rw [hm]; rfl

end Autopush
